import Mathlib

/-!
Shallow embedding of the frame-pacing / GPU-CPU synchronization core of
`src/engine/src/renderer/Renderer.cpp` (class `Renderer`).

Modelling choices:
- Each frame slot (`FrameResources`) carries its recorded target `fenceValue`
  (0 = never-submitted sentinel) and the completed counter of the fence object
  it owns (`completed`, the value `GetCompletedValue()` would return).  GPU
  progress is delivered by explicit `deliver` events; a fence can only complete
  up to the largest value that was actually signaled on it.
- External calls that can fail (`Close`, `Signal`, `Present`,
  `SwapChain::Reconfigure`, allocator/list `Reset`, `SetEventOnCompletion`)
  are driven by environment records of booleans.
- `printf` diagnostics are modelled as a `diagnostics` log so that
  "reported" / "not reported" is observable.
- Blocking (`WaitForSingleObject(..., INFINITE)`) is modelled at the trace
  level: a `begin` operation completes only when the wait would return; while
  the slot's fence has not reached the recorded target (and arming succeeded),
  the operation does not complete (`BeginOutcome.blocked`).
- Fields of `Renderer` initialized in `Renderer.h` (not part of the sources):
  their initial values are modelled from the spec where noted.
-/

namespace Dx12

/-- Diagnostics emitted through `printf` in `Renderer.cpp`; newest first. -/
inductive Diag where
  | allocatorResetFailed (i : Nat)
  | listResetFailed (i : Nat)
  | closeFailed (i : Nat)
  | signalFailed (i : Nat)
  | armFailed (i : Nat)
  | swapReconfigureFailed
  | initFrameResourcesFailed
deriving DecidableEq, Repr

/-- One per-frame slot (`FrameResources` in `Renderer.h`): a command allocator,
a fence and its recorded target value.  `fenceValue = 0` is the never-submitted
sentinel.  `completed` is the fence object's completed counter
(`GetCompletedValue`); each slot owns its own fence, created with initial
value 0 (`CreateFence(0, ...)` in `InitializeFrameResources`).
`allocatorResets` counts successful `commandAllocator->Reset()` calls, to make
allocator reuse observable.  `createdEpoch` records in which
initialize/reconfigure epoch the slot's resources were created, to make slot
freshness observable. -/
structure FrameResources where
  fenceValue : Nat
  completed : Nat
  createdEpoch : Nat
  allocatorResets : Nat
deriving DecidableEq, Repr

/-- A freshly created slot.  Modelled from the spec: the `fenceValue = 0`
initializer lives in `Renderer.h` (not part of the sources); the spec reserves
0 as the "never submitted" sentinel, matching the source comment
"If no fence value set, frame hasn't been used yet". -/
def freshSlot (e : Nat) : FrameResources :=
  { fenceValue := 0, completed := 0, createdEpoch := e, allocatorResets := 0 }

/-- The renderer state: the frame-resource pool, the global fence value
counter, the current frame index, and observation logs for submissions,
signals, drawn fence values, resource-manager notifications, presents and
diagnostics.  `swapBufferCount` mirrors `m_swapChain->GetBufferCount()`. -/
structure RendererState where
  frameResources : List FrameResources
  nextFenceValue : Nat
  currentFrameIndex : Nat
  swapBufferCount : Nat
  epoch : Nat
  submitCount : Nat
  signalLog : List (Nat × Nat)
  drawnLog : List Nat
  rmBeginCount : Nat
  rmEndCount : Nat
  presentCount : Nat
  diagnostics : List Diag
deriving DecidableEq, Repr

/-- `m_frameResources` update helper: apply `f` to slot `i`, identity when `i`
is out of range (callers establish range on their own, mirroring the unchecked
`std::vector` indexing in the source). -/
def updateSlot (l : List FrameResources) (i : Nat) (f : FrameResources → FrameResources) :
    List FrameResources :=
  match l[i]? with
  | some fr => l.set i (f fr)
  | none => l

/-- State right after the constructor's `InitializeFrameResources` succeeded.
Modelled from the spec: the member initializers `m_nextFenceValue = 1`
(Global Fence Value Counter "Starts at 1 (0 reserved as unsubmitted
sentinel)") and `m_currentFrameIndex = 0` live in `Renderer.h`, which is not
part of the sources. -/
def initialState (bufferCount : Nat) : RendererState :=
  { frameResources := List.replicate bufferCount (freshSlot 0)
    nextFenceValue := 1
    currentFrameIndex := 0
    swapBufferCount := bufferCount
    epoch := 0
    submitCount := 0
    signalLog := []
    drawnLog := []
    rmBeginCount := 0
    rmEndCount := 0
    presentCount := 0
    diagnostics := [] }

/-- Outcome of `Renderer::WaitForFrame`: returns immediately, returns after a
failed `SetEventOnCompletion` registration, or blocks until the slot's fence
reaches the recorded target value. -/
inductive WaitOutcome where
  | immediate
  | armFail
  | blocksUntil (target : Nat)
deriving DecidableEq, Repr

/-- `Renderer::WaitForFrame(frameIndex)`: out-of-range index returns; sentinel
`fenceValue == 0` returns; `GetCompletedValue() >= fenceValue` returns;
otherwise it arms `SetEventOnCompletion` (returning with a diagnostic if that
fails, `armOk = false`) and blocks on the fence event until the fence reaches
`fenceValue`.  The function mutates no renderer field. -/
def WaitForFrame (s : RendererState) (frameIndex : Nat) (armOk : Bool) : WaitOutcome :=
  match s.frameResources[frameIndex]? with
  | none => .immediate
  | some fr =>
    if fr.fenceValue = 0 then .immediate
    else if fr.fenceValue ≤ fr.completed then .immediate
    else if armOk then .blocksUntil fr.fenceValue
    else .armFail

/-- `Renderer::IsFrameComplete(frameIndex)` (a `const` method: it mutates no
state and never blocks). -/
def IsFrameComplete (s : RendererState) (frameIndex : Nat) : Bool :=
  match s.frameResources[frameIndex]? with
  | none => true
  | some fr =>
    if fr.fenceValue = 0 then true
    else decide (fr.fenceValue ≤ fr.completed)

/-- Environment for one `BeginFrame` call: the back-buffer index reported by
the swap chain, and the outcomes of the external `SetEventOnCompletion`,
allocator `Reset` and command-list `Reset` calls. -/
structure BeginFrameEnv where
  reportedIndex : Nat
  armOk : Bool
  allocResetOk : Bool
  listResetOk : Bool
deriving DecidableEq, Repr

/-- What `Renderer::BeginFrame` returned: the shared command list handle, or
`nullptr` after a reset failure. -/
inductive BeginFrameResult where
  | handle
  | nullptr
deriving DecidableEq, Repr

/-- Outcome of a `BeginFrame` call: it proceeds to a new state and a return
value; or the wait blocks until the slot's fence reaches `target`; or the
reported index is out of the pool's range, in which case the C++ indexes the
vector out of bounds (undefined behaviour, unreachable in real traces). -/
inductive BeginOutcome where
  | proceeds (s : RendererState) (res : BeginFrameResult)
  | blocked (target : Nat)
  | outOfRange
deriving DecidableEq, Repr

/-- Continuation of `BeginFrame` after the wait returned: reset the slot's
command allocator (on failure print and return `nullptr`), reset the shared
command list against it (on failure print and return `nullptr`), emit the
PRESENT→RENDER_TARGET barrier (no modelled state), return the list.  `t` is
the renderer state at the moment the wait returned. -/
def beginAfterWait (t : RendererState) (env : BeginFrameEnv) : BeginOutcome :=
  if env.allocResetOk then
    if env.listResetOk then
      .proceeds
        { t with frameResources :=
            (updateSlot t.frameResources env.reportedIndex
              (fun fr => { fr with allocatorResets := fr.allocatorResets + 1 })) }
        .handle
    else
      .proceeds
        { t with
          frameResources :=
            (updateSlot t.frameResources env.reportedIndex
              (fun fr => { fr with allocatorResets := fr.allocatorResets + 1 }))
          diagnostics := .listResetFailed env.reportedIndex :: t.diagnostics }
        .nullptr
  else
    .proceeds
      { t with diagnostics := .allocatorResetFailed env.reportedIndex :: t.diagnostics }
      .nullptr

/-- `Renderer::BeginFrame()`: notify the resource manager, read the current
back-buffer index from the swap chain, wait for the slot (the backpressure
point; `WaitForFrame` reads only `frameResources`, which the bookkeeping
update does not touch), then reset allocator and command list
(`beginAfterWait`).  In the blocked case the call has not completed, so no
completed-state is produced (the resource-manager notification and the index
update precede the wait in the source; a blocked call never returns, so they
are never observed by later operations). -/
def BeginFrame (s : RendererState) (env : BeginFrameEnv) : BeginOutcome :=
  if env.reportedIndex < s.frameResources.length then
    match WaitForFrame s env.reportedIndex env.armOk with
    | .blocksUntil v => .blocked v
    | .immediate =>
      beginAfterWait
        { s with rmBeginCount := s.rmBeginCount + 1
                 currentFrameIndex := env.reportedIndex }
        env
    | .armFail =>
      beginAfterWait
        { s with rmBeginCount := s.rmBeginCount + 1
                 currentFrameIndex := env.reportedIndex
                 diagnostics := .armFailed env.reportedIndex :: s.diagnostics }
        env
  else .outOfRange

/-- Environment for one `EndFrame` call: outcomes of the external `Close`,
queue `Signal` and swap-chain `Present` calls. -/
structure EndFrameEnv where
  closeOk : Bool
  signalOk : Bool
  presentOk : Bool
deriving DecidableEq, Repr

/-- `Renderer::EndFrame(config)`: emit the RENDER_TARGET→PRESENT barrier (no
modelled state); on close failure print and return; otherwise execute the
command list, draw `m_nextFenceValue` (post-increment) and store it as the
slot's `fenceValue`, signal it on the queue (printing on failure but
continuing), notify the resource manager, and present (the present result is
discarded by the source).  `none` when `m_currentFrameIndex` is out of the
pool's range (the C++ reference `m_frameResources[m_currentFrameIndex]` would
be out of bounds: undefined behaviour, unreachable in real traces). -/
def EndFrame (s : RendererState) (env : EndFrameEnv) : Option RendererState :=
  match s.frameResources[s.currentFrameIndex]? with
  | none => none
  | some fr =>
    if env.closeOk then
      if env.signalOk then
        some { s with
          submitCount := s.submitCount + 1
          nextFenceValue := s.nextFenceValue + 1
          drawnLog := s.nextFenceValue :: s.drawnLog
          frameResources :=
            s.frameResources.set s.currentFrameIndex { fr with fenceValue := s.nextFenceValue }
          signalLog := (s.currentFrameIndex, s.nextFenceValue) :: s.signalLog
          rmEndCount := s.rmEndCount + 1
          presentCount := s.presentCount + 1 }
      else
        some { s with
          submitCount := s.submitCount + 1
          nextFenceValue := s.nextFenceValue + 1
          drawnLog := s.nextFenceValue :: s.drawnLog
          frameResources :=
            s.frameResources.set s.currentFrameIndex { fr with fenceValue := s.nextFenceValue }
          diagnostics := .signalFailed s.currentFrameIndex :: s.diagnostics
          rmEndCount := s.rmEndCount + 1
          presentCount := s.presentCount + 1 }
    else
      some { s with diagnostics := .closeFailed s.currentFrameIndex :: s.diagnostics }

/-- Largest value ever signaled on slot `i`'s fence (0 if none): a fence's
completed counter can never exceed this. -/
def maxSignaled (s : RendererState) (i : Nat) : Nat :=
  s.signalLog.foldr (fun p acc => if p.1 = i then max p.2 acc else acc) 0

/-- GPU progress event: slot `i`'s fence completes up to `v`.  Only values
that were actually signaled on that fence can be delivered, and the completed
counter is monotone. -/
def deliverCompletion (s : RendererState) (i v : Nat) : Option RendererState :=
  if v ≤ maxSignaled s i then
    some { s with frameResources :=
            (updateSlot s.frameResources i
              (fun fr => { fr with completed := max fr.completed v })) }
  else none

/-- `Renderer::InitializeFrameResources()` (success path): read the buffer
count from the swap chain and build that many fresh slots (allocator, fence
created at 0, event).  A new epoch marks the freshly created resources. -/
def InitializeFrameResources (s : RendererState) : RendererState :=
  { s with epoch := s.epoch + 1
           frameResources := List.replicate s.swapBufferCount (freshSlot (s.epoch + 1)) }

/-- Environment for one `OnReconfigure` call: outcomes of the external
`SwapChain::Reconfigure` and of the per-slot resource creation inside
`InitializeFrameResources`. -/
structure ReconfigureEnv where
  reconfigOk : Bool
  initOk : Bool
deriving DecidableEq, Repr

/-- `Renderer::OnReconfigure(width, height, bufferCount)`: drain all frames
(`WaitForAllFrames` mutates no renderer field; its blocking is represented by
the `deliver` events that precede the call in a trace), compute the effective
new buffer count (`bufferCount == 0` keeps the swap chain's current count),
reconfigure the swap chain (on failure print and return), and if the buffer
count changed, release and recreate the frame-resource pool.
The swap chain's count update is modelled from the spec's adapter interface:
`reconfigure(width, height, bufferCount)` leaves the count unchanged when
passed 0, matching the source's own `newBufferCount` computation. -/
def effectiveBufferCount (s : RendererState) (bufferCount : Nat) : Nat :=
  if bufferCount = 0 then s.swapBufferCount else bufferCount

/-- See the comment on `effectiveBufferCount`: this is
`Renderer::OnReconfigure` itself. -/
def OnReconfigure (s : RendererState) (width height bufferCount : Nat)
    (env : ReconfigureEnv) : RendererState :=
  if env.reconfigOk then
    if effectiveBufferCount s bufferCount ≠ s.swapBufferCount then
      if env.initOk then
        InitializeFrameResources
          { s with swapBufferCount := effectiveBufferCount s bufferCount
                   frameResources := [] }
      else
        { InitializeFrameResources
            { s with swapBufferCount := effectiveBufferCount s bufferCount
                     frameResources := [] }
          with diagnostics := .initFrameResourcesFailed :: s.diagnostics }
    else { s with swapBufferCount := effectiveBufferCount s bufferCount }
  else { s with diagnostics := .swapReconfigureFailed :: s.diagnostics }

/-- One externally visible event: a `BeginFrame` call, an `EndFrame` call, a
GPU completion delivery, or an `OnReconfigure` call. -/
inductive Op where
  | begin (env : BeginFrameEnv)
  | endFrame (env : EndFrameEnv)
  | deliver (i v : Nat)
  | reconfigure (width height bufferCount : Nat) (env : ReconfigureEnv)
deriving DecidableEq, Repr

/-- One step of the renderer's trace semantics; `none` when the operation
cannot complete (a blocked `BeginFrame`, an impossible delivery, or an
out-of-range index that the C++ would turn into undefined behaviour). -/
def stepOp (s : RendererState) (op : Op) : Option RendererState :=
  match op with
  | .begin env =>
    match BeginFrame s env with
    | .proceeds s' _ => some s'
    | _ => none
  | .endFrame env => EndFrame s env
  | .deliver i v => deliverCompletion s i v
  | .reconfigure w h b env => some (OnReconfigure s w h b env)

/-- Run a list of operations from a state, failing if any step fails. -/
def runOps (s : RendererState) : List Op → Option RendererState
  | [] => some s
  | op :: rest => (stepOp s op).bind (fun s' => runOps s' rest)

/-- All-success environments for a begin/end cycle on slot `i`. -/
def beginEnvOk (i : Nat) : BeginFrameEnv :=
  { reportedIndex := i, armOk := true, allocResetOk := true, listResetOk := true }

/-- All-success `EndFrame` environment. -/
def okEnd : EndFrameEnv :=
  { closeOk := true, signalOk := true, presentOk := true }

/-- The first `n` begin/end cycles on slots `0, 1, ..., n-1` (the swap chain's
round-robin rotation on a fresh renderer), with every external call
succeeding and no GPU completion delivered. -/
def cycleTrace : Nat → List Op
  | 0 => []
  | n + 1 => cycleTrace n ++ [.begin (beginEnvOk n), .endFrame okEnd]

/-- The list `[k, k-1, ..., 1]`: the fence values drawn so far, newest
first, when the counter's next draw is `k + 1`. -/
def countdown : Nat → List Nat
  | 0 => []
  | k + 1 => (k + 1) :: countdown k

/-- Slot `i` may be reused: it was never submitted (sentinel 0) or its fence
has reached the recorded target value. -/
def slotReady (s : RendererState) (i : Nat) : Prop :=
  ∀ f, s.frameResources[i]? = some f → f.fenceValue = 0 ∨ f.fenceValue ≤ f.completed

/-- Invariant of the global fence value counter: it has always drawn exactly
the values `1, ..., nextFenceValue - 1`, in that order. -/
def counterInv (s : RendererState) : Prop :=
  1 ≤ s.nextFenceValue ∧ s.drawnLog = countdown (s.nextFenceValue - 1)

/-- State shape after the first `k` begin/end cycles of a fresh renderer with
`m` slots and no GPU completion: slots `0..k-1` carry recorded fence values
`1..k` (still incomplete), the rest are untouched, the counter is at `k + 1`,
and value `i + 1` was signaled on slot `i`'s fence. -/
def cycleInv (m k : Nat) (s : RendererState) : Prop :=
  s.frameResources.length = m ∧
  s.nextFenceValue = k + 1 ∧
  (∀ i, i < k →
    ∃ f, s.frameResources[i]? = some f ∧ f.fenceValue = i + 1 ∧ f.completed = 0) ∧
  (∀ i, k ≤ i → i < m →
    ∃ f, s.frameResources[i]? = some f ∧ f.fenceValue = 0 ∧ f.completed = 0) ∧
  (∀ i, i < k → (i, i + 1) ∈ s.signalLog)

/-- The concrete two-slot scenario of the spec: frame 1 on slot 0, frame 2 on
slot 1, every external call succeeding, no GPU completion delivered. -/
def c1Trace : List Op :=
  [.begin (beginEnvOk 0), .endFrame okEnd, .begin (beginEnvOk 1), .endFrame okEnd]

/-- The state reached by `c1Trace` from a fresh two-slot renderer. -/
def c1State : RendererState :=
  (runOps (initialState 2) c1Trace).getD (initialState 2)

/-- `c1State` after slot 0's fence completes value 1 (value 2 still pending on
slot 1) and `BeginFrame` is called again on slot 0. -/
def c1Resumed : RendererState :=
  (runOps c1State [.deliver 0 1, .begin (beginEnvOk 0)]).getD c1State

/-- Concrete state used to witness the counter theorem: one successful
`EndFrame` on a one-slot renderer. -/
def c4WitState : RendererState :=
  (runOps (initialState 1) [.endFrame okEnd]).getD (initialState 1)

/-- An `EndFrame` whose command-list `Close` call fails. -/
def closeFailEnv : EndFrameEnv :=
  { closeOk := false, signalOk := true, presentOk := true }

/-- A successful frame whose `Present` call fails. -/
def presentFailEnv : EndFrameEnv :=
  { closeOk := true, signalOk := true, presentOk := false }

/-- Result of an `EndFrame` whose `Present` call failed, on a fresh two-slot
renderer. -/
def c8State : RendererState :=
  (EndFrame (initialState 2) presentFailEnv).getD (initialState 2)

/-! Helper lemmas shared by the claim theorems. -/

theorem runOps_append (s : RendererState) (l₁ l₂ : List Op) :
    runOps s (l₁ ++ l₂) = (runOps s l₁).bind (fun s' => runOps s' l₂) := by
  induction l₁ generalizing s with
  | nil => simp [runOps]
  | cons op rest ih =>
    simp only [List.cons_append, runOps]
    cases stepOp s op with
    | none => simp
    | some s' => simp [ih]

theorem updateSlot_length (l : List FrameResources) (i : Nat)
    (f : FrameResources → FrameResources) : (updateSlot l i f).length = l.length := by
  unfold updateSlot
  cases l[i]? with
  | none => rfl
  | some fr => simp

theorem updateSlot_getElem_ne (l : List FrameResources) (i j : Nat)
    (f : FrameResources → FrameResources) (h : i ≠ j) :
    (updateSlot l i f)[j]? = l[j]? := by
  unfold updateSlot
  cases hl : l[i]? with
  | none => rfl
  | some fr => exact List.getElem?_set_ne h

theorem updateSlot_getElem_self (l : List FrameResources) (i : Nat)
    (f : FrameResources → FrameResources) :
    (updateSlot l i f)[i]? = (l[i]?).map f := by
  unfold updateSlot
  cases hl : l[i]? with
  | none => simp [hl]
  | some fr =>
    obtain ⟨hi, -⟩ := List.getElem?_eq_some.mp hl
    simp [List.getElem?_set_eq_of_lt, hi, hl]

theorem countdown_pairwise (k : Nat) : (countdown k).Pairwise (fun a b => b < a) := by
  induction k with
  | zero => simp [countdown]
  | succ k ih =>
    refine List.pairwise_cons.mpr ⟨?_, ih⟩
    intro b hb
    have : 1 ≤ b ∧ b ≤ k := by
      clear ih
      induction k with
      | zero => cases hb
      | succ k ihk =>
        rcases List.mem_cons.mp hb with h | h
        · omega
        · have := ihk h
          omega
    omega

theorem le_foldrMax_of_mem (log : List (Nat × Nat)) (i v : Nat) (h : (i, v) ∈ log) :
    v ≤ log.foldr (fun p acc => if p.1 = i then max p.2 acc else acc) 0 := by
  induction log with
  | nil => cases h
  | cons p rest ih =>
    rcases List.mem_cons.mp h with h1 | h1
    · subst h1
      simp
    · have := ih h1
      by_cases hp : p.1 = i <;> simp [hp] <;> omega

theorem le_maxSignaled_of_mem (s : RendererState) (i v : Nat)
    (h : (i, v) ∈ s.signalLog) : v ≤ maxSignaled s i :=
  le_foldrMax_of_mem s.signalLog i v h

theorem BeginFrame_ready (s : RendererState) (k : Nat) (f : FrameResources)
    (hlen : k < s.frameResources.length)
    (hk : s.frameResources[k]? = some f)
    (hready : f.fenceValue = 0 ∨ f.fenceValue ≤ f.completed) :
    BeginFrame s (beginEnvOk k) = .proceeds
      { s with rmBeginCount := s.rmBeginCount + 1
               currentFrameIndex := k
               frameResources :=
                 (updateSlot s.frameResources k
                   (fun fr => { fr with allocatorResets := fr.allocatorResets + 1 })) }
      .handle := by
  have hw : WaitForFrame s k true = .immediate := by
    unfold WaitForFrame
    rw [hk]
    rcases hready with h | h
    · simp [h]
    · by_cases h0 : f.fenceValue = 0 <;> simp [h0, h]
  unfold BeginFrame beginEnvOk
  simp only []
  rw [if_pos hlen, hw]
  unfold beginAfterWait
  simp

theorem BeginFrame_blocked (s : RendererState) (k : Nat) (f : FrameResources)
    (hlen : k < s.frameResources.length)
    (hk : s.frameResources[k]? = some f)
    (h0 : f.fenceValue ≠ 0) (hlt : f.completed < f.fenceValue) :
    BeginFrame s (beginEnvOk k) = .blocked f.fenceValue := by
  have hw : WaitForFrame s k true = .blocksUntil f.fenceValue := by
    unfold WaitForFrame
    rw [hk]
    simp [h0, Nat.not_le.mpr hlt]
  unfold BeginFrame beginEnvOk
  simp only []
  rw [if_pos hlen, hw]

theorem EndFrame_ok (s : RendererState) (f : FrameResources)
    (hf : s.frameResources[s.currentFrameIndex]? = some f) :
    EndFrame s okEnd = some { s with
      submitCount := s.submitCount + 1
      nextFenceValue := s.nextFenceValue + 1
      drawnLog := s.nextFenceValue :: s.drawnLog
      frameResources :=
        s.frameResources.set s.currentFrameIndex { f with fenceValue := s.nextFenceValue }
      signalLog := (s.currentFrameIndex, s.nextFenceValue) :: s.signalLog
      rmEndCount := s.rmEndCount + 1
      presentCount := s.presentCount + 1 } := by
  unfold EndFrame okEnd
  rw [hf]
  simp

theorem EndFrame_closeFail (s : RendererState) (f : FrameResources) (env : EndFrameEnv)
    (hf : s.frameResources[s.currentFrameIndex]? = some f)
    (hc : env.closeOk = false) :
    EndFrame s env =
      some { s with diagnostics := .closeFailed s.currentFrameIndex :: s.diagnostics } := by
  unfold EndFrame
  rw [hf]
  simp [hc]

theorem EndFrame_draws (s : RendererState) (env : EndFrameEnv) (s2 : RendererState)
    (hc : env.closeOk = true) (h : EndFrame s env = some s2) :
    s2.drawnLog = s.nextFenceValue :: s.drawnLog ∧
    s2.nextFenceValue = s.nextFenceValue + 1 := by
  unfold EndFrame at h
  cases hf : s.frameResources[s.currentFrameIndex]? with
  | none =>
    rw [hf] at h
    cases h
  | some fr =>
    rw [hf] at h
    by_cases hsg : env.signalOk
    · simp [hc, hsg] at h
      subst h
      exact ⟨rfl, rfl⟩
    · have hsg' : env.signalOk = false := by
        cases hx : env.signalOk
        · rfl
        · exact absurd hx hsg
      simp [hc, hsg'] at h
      subst h
      exact ⟨rfl, rfl⟩

theorem beginAfterWait_counter (t : RendererState) (env : BeginFrameEnv)
    (t' : RendererState) (r : BeginFrameResult)
    (h : beginAfterWait t env = .proceeds t' r) :
    t'.nextFenceValue = t.nextFenceValue ∧ t'.drawnLog = t.drawnLog := by
  unfold beginAfterWait at h
  by_cases ha : env.allocResetOk
  · by_cases hl : env.listResetOk
    · rw [if_pos ha, if_pos hl] at h
      cases h
      exact ⟨rfl, rfl⟩
    · rw [if_pos ha, if_neg hl] at h
      cases h
      exact ⟨rfl, rfl⟩
  · rw [if_neg ha] at h
    cases h
    exact ⟨rfl, rfl⟩

theorem BeginFrame_proceeds_counter (t : RendererState) (env : BeginFrameEnv)
    (t' : RendererState) (r : BeginFrameResult)
    (h : BeginFrame t env = .proceeds t' r) :
    t'.nextFenceValue = t.nextFenceValue ∧ t'.drawnLog = t.drawnLog := by
  unfold BeginFrame at h
  by_cases hl : env.reportedIndex < t.frameResources.length
  · rw [if_pos hl] at h
    cases hw : WaitForFrame t env.reportedIndex env.armOk with
    | immediate =>
      rw [hw] at h
      have h' : beginAfterWait
          { t with rmBeginCount := t.rmBeginCount + 1
                   currentFrameIndex := env.reportedIndex } env = .proceeds t' r := h
      obtain ⟨e1, e2⟩ := beginAfterWait_counter _ env t' r h'
      exact ⟨e1, e2⟩
    | armFail =>
      rw [hw] at h
      have h' : beginAfterWait
          { t with rmBeginCount := t.rmBeginCount + 1
                   currentFrameIndex := env.reportedIndex
                   diagnostics := .armFailed env.reportedIndex :: t.diagnostics } env =
          .proceeds t' r := h
      obtain ⟨e1, e2⟩ := beginAfterWait_counter _ env t' r h'
      exact ⟨e1, e2⟩
    | blocksUntil v =>
      rw [hw] at h
      simp at h
  · rw [if_neg hl] at h
    cases h

theorem OnReconfigure_counter (s : RendererState) (w hgt b : Nat) (env : ReconfigureEnv) :
    (OnReconfigure s w hgt b env).nextFenceValue = s.nextFenceValue ∧
    (OnReconfigure s w hgt b env).drawnLog = s.drawnLog := by
  unfold OnReconfigure
  by_cases h1 : env.reconfigOk
  · rw [if_pos h1]
    by_cases h2 : effectiveBufferCount s b ≠ s.swapBufferCount
    · rw [if_pos h2]
      by_cases h3 : env.initOk
      · rw [if_pos h3]
        exact ⟨rfl, rfl⟩
      · rw [if_neg h3]
        exact ⟨rfl, rfl⟩
    · rw [if_neg h2]
      exact ⟨rfl, rfl⟩
  · rw [if_neg h1]
    exact ⟨rfl, rfl⟩

theorem stepOp_counterInv (s s' : RendererState) (op : Op)
    (h : counterInv s) (hs : stepOp s op = some s') : counterInv s' := by
  obtain ⟨h1, h2⟩ := h
  cases op with
  | begin env =>
    simp only [stepOp] at hs
    cases hb : BeginFrame s env with
    | proceeds t r =>
      rw [hb] at hs
      cases hs
      obtain ⟨e1, e2⟩ := BeginFrame_proceeds_counter s env _ _ hb
      exact ⟨by omega, by rw [e2, e1, h2]⟩
    | blocked v =>
      rw [hb] at hs
      cases hs
    | outOfRange =>
      rw [hb] at hs
      cases hs
  | endFrame env =>
    simp only [stepOp] at hs
    by_cases hc : env.closeOk
    · obtain ⟨hd, hn⟩ := EndFrame_draws s env s' hc hs
      refine ⟨by omega, ?_⟩
      rw [hd, hn, h2]
      obtain ⟨j, hj⟩ : ∃ j, s.nextFenceValue = j + 1 := ⟨s.nextFenceValue - 1, by omega⟩
      rw [hj]
      simp [countdown]
    · have hc' : env.closeOk = false := by
        cases hx : env.closeOk
        · rfl
        · exact absurd hx hc
      unfold EndFrame at hs
      cases hf : s.frameResources[s.currentFrameIndex]? with
      | none =>
        rw [hf] at hs
        cases hs
      | some fr =>
        rw [hf] at hs
        simp [hc'] at hs
        subst hs
        exact ⟨h1, h2⟩
  | deliver i v =>
    simp only [stepOp] at hs
    unfold deliverCompletion at hs
    by_cases hm : v ≤ maxSignaled s i
    · rw [if_pos hm] at hs
      cases hs
      exact ⟨h1, h2⟩
    · rw [if_neg hm] at hs
      cases hs
  | reconfigure w hgt b env =>
    simp only [stepOp] at hs
    cases hs
    obtain ⟨e1, e2⟩ := OnReconfigure_counter s w hgt b env
    exact ⟨by omega, by rw [e2, e1, h2]⟩

theorem runOps_counterInv (ops : List Op) : ∀ s s', counterInv s →
    runOps s ops = some s' → counterInv s' := by
  induction ops with
  | nil =>
    intro s s' h hr
    cases hr
    exact h
  | cons op rest ih =>
    intro s s' h hr
    simp only [runOps] at hr
    cases hstep : stepOp s op with
    | none =>
      rw [hstep] at hr
      cases hr
    | some t =>
      rw [hstep] at hr
      simp only [Option.some_bind] at hr
      exact ih t s' (stepOp_counterInv s t op h hstep) hr

/-! The claim theorems. -/

/-- C1: with two buffers, after frame 1 signals fence value 1 into slot 0 and
frame 2 signals fence value 2 into slot 1, the third `BeginFrame` (reusing
slot 0) waits for slot 0's own recorded fence value 1 — not the globally
latest value 2 — before resetting slot 0's command allocator: from `c1State`
the wait blocks exactly until value 1, and delivering value 1 on slot 0's
fence alone (slot 1's value 2 still pending) lets `BeginFrame` proceed and
reset slot 0's allocator. -/
theorem spec_c1_per_slot_wait :
    runOps (initialState 2) c1Trace = some c1State ∧
    c1State.frameResources.map (fun f => f.fenceValue) = [1, 2] ∧
    WaitForFrame c1State 0 true = .blocksUntil 1 ∧
    stepOp c1State (.begin (beginEnvOk 0)) = none ∧
    runOps c1State [.deliver 0 1, .begin (beginEnvOk 0)] = some c1Resumed ∧
    c1Resumed.frameResources.map (fun f => (f.fenceValue, f.completed, f.allocatorResets)) =
      [(1, 1, 2), (2, 0, 1)] :=
  ⟨rfl, rfl, rfl, rfl, rfl, rfl⟩

/-- C5: if closing the command list fails during `EndFrame`, no command list
is submitted to the execution queue, no fence value is drawn or signaled for
the current slot, the slot's previously recorded `fenceValue` (indeed the
whole frame-resource pool) is unchanged, and the frame is not presented. -/
theorem spec_c5_close_failure_atomic (s s' : RendererState) (env : EndFrameEnv)
    (hc : env.closeOk = false) (h : EndFrame s env = some s') :
    s'.submitCount = s.submitCount ∧
    s'.nextFenceValue = s.nextFenceValue ∧
    s'.drawnLog = s.drawnLog ∧
    s'.signalLog = s.signalLog ∧
    s'.frameResources = s.frameResources ∧
    s'.presentCount = s.presentCount := by
  unfold EndFrame at h
  cases hf : s.frameResources[s.currentFrameIndex]? with
  | none =>
    rw [hf] at h
    cases h
  | some fr =>
    rw [hf] at h
    simp [hc] at h
    subst h
    simp

/-- Witness for C5 at a concrete input. -/
theorem spec_c5_witness :
    ((EndFrame (initialState 1) closeFailEnv).getD (initialState 1)).signalLog =
        (initialState 1).signalLog ∧
    ((EndFrame (initialState 1) closeFailEnv).getD (initialState 1)).frameResources =
        (initialState 1).frameResources := by
  have h := spec_c5_close_failure_atomic (initialState 1)
    ((EndFrame (initialState 1) closeFailEnv).getD (initialState 1)) closeFailEnv rfl rfl
  exact ⟨h.2.2.2.1, h.2.2.2.2.1⟩

/-- C6: `IsFrameComplete(index)` is true iff the index is out of range
(fail-open), or the slot's `fenceValue` is the sentinel 0, or the fence's
completed counter has reached the slot's recorded target.  (It is a pure,
non-blocking function of the state: the C++ method is `const` and contains no
wait.) -/
theorem spec_c6_isFrameComplete_iff (s : RendererState) (i : Nat) :
    IsFrameComplete s i = true ↔
      (s.frameResources.length ≤ i ∨
        ∃ f, s.frameResources[i]? = some f ∧
          (f.fenceValue = 0 ∨ f.fenceValue ≤ f.completed)) := by
  unfold IsFrameComplete
  cases hf : s.frameResources[i]? with
  | none =>
    simp [List.getElem?_eq_none_iff.mp hf]
  | some f =>
    have hlt : ¬ s.frameResources.length ≤ i := by
      obtain ⟨hi, -⟩ := List.getElem?_eq_some.mp hf
      omega
    by_cases h0 : f.fenceValue = 0
    · simp [h0, hlt]
    · by_cases hle : f.fenceValue ≤ f.completed <;> simp [h0, hle, hlt]

/-- Witness for C6 at a concrete input. -/
theorem spec_c6_witness : IsFrameComplete (initialState 2) 0 = true :=
  (spec_c6_isFrameComplete_iff (initialState 2) 0).mpr
    (Or.inr ⟨freshSlot 0, rfl, Or.inl rfl⟩)

/-- C9 (implicit): `OnReconfigure` with `bufferCount = 0` treats 0 as "keep
the current buffer count": if the swap-chain reconfigure succeeds, the
frame-resource pool is not released or recreated and the whole renderer state
(every slot's allocator, fence and recorded `fenceValue` included) is left
unchanged. -/
theorem spec_c9_reconfigure_zero_keeps (s : RendererState) (w h : Nat)
    (env : ReconfigureEnv) (hok : env.reconfigOk = true) :
    OnReconfigure s w h 0 env = s := by
  unfold OnReconfigure effectiveBufferCount
  simp [hok]

/-- Witness for C9 at a concrete input. -/
theorem spec_c9_witness :
    OnReconfigure (initialState 2) 800 600 0 { reconfigOk := true, initOk := true } =
      initialState 2 :=
  spec_c9_reconfigure_zero_keeps (initialState 2) 800 600
    { reconfigOk := true, initOk := true } rfl

/-- C10 (implicit): when the command-list close fails in `EndFrame`, the only
effect is the `closeFailed` diagnostic: the global fence value counter
(`m_nextFenceValue`) is unchanged, the resource manager's frame-end
notification is skipped (`rmEndCount` unchanged), and every renderer field
other than the diagnostic log is untouched. -/
theorem spec_c10_close_failure_only_diagnostic (s : RendererState) (env : EndFrameEnv)
    (hlen : s.currentFrameIndex < s.frameResources.length)
    (hc : env.closeOk = false) :
    EndFrame s env =
      some { s with diagnostics := .closeFailed s.currentFrameIndex :: s.diagnostics } ∧
    ∀ s', EndFrame s env = some s' →
      s'.nextFenceValue = s.nextFenceValue ∧ s'.rmEndCount = s.rmEndCount := by
  obtain ⟨f, hf⟩ : ∃ f, s.frameResources[s.currentFrameIndex]? = some f :=
    ⟨_, List.getElem?_eq_getElem hlen⟩
  refine ⟨EndFrame_closeFail s f env hf hc, ?_⟩
  intro s' h
  rw [EndFrame_closeFail s f env hf hc] at h
  cases h
  simp

/-- Witness for C10 at a concrete input. -/
theorem spec_c10_witness :
    EndFrame (initialState 1) closeFailEnv =
      some { initialState 1 with
        diagnostics := [.closeFailed (initialState 1).currentFrameIndex] } :=
  (spec_c10_close_failure_only_diagnostic (initialState 1) closeFailEnv (by decide) rfl).1

/-- C8 counterexample: the claim says present failures during `EndFrame` "are
reported", but the source discards the result of `m_swapChain->Present` and
prints nothing: at a concrete input an `EndFrame` whose present fails emits no
diagnostic at all, and produces a state identical to that of a successful
present. -/
theorem spec_c8_counterexample :
    EndFrame (initialState 2) presentFailEnv = some c8State ∧
    c8State.diagnostics = [] ∧
    EndFrame (initialState 2) presentFailEnv =
      EndFrame (initialState 2) { closeOk := true, signalOk := true, presentOk := true } :=
  ⟨rfl, rfl, rfl⟩

/-- C8 amended: present failures during `EndFrame` are silently ignored at
the renderer level (the present result is discarded and no diagnostic is
emitted) and are non-fatal to the renderer's internal state: the slot's fence
value is drawn and signaled before the present call, so fence and slot
bookkeeping are identical regardless of the present outcome. -/
theorem spec_c8_present_failure_silent (s : RendererState) (env : EndFrameEnv) :
    EndFrame s env =
      EndFrame s { closeOk := env.closeOk, signalOk := env.signalOk, presentOk := true } ∧
    ∀ s', env.closeOk = true → EndFrame s env = some s' →
      s'.drawnLog = s.nextFenceValue :: s.drawnLog ∧
      s'.nextFenceValue = s.nextFenceValue + 1 ∧
      s'.presentCount = s.presentCount + 1 ∧
      (env.signalOk = true → s'.signalLog = (s.currentFrameIndex, s.nextFenceValue) :: s.signalLog) ∧
      (env.signalOk = true → s'.diagnostics = s.diagnostics) := by
  constructor
  · cases env
    rfl
  · intro s' hc h
    unfold EndFrame at h
    cases hf : s.frameResources[s.currentFrameIndex]? with
    | none =>
      rw [hf] at h
      cases h
    | some fr =>
      rw [hf] at h
      by_cases hsg : env.signalOk
      · simp [hc, hsg] at h
        subst h
        simp
      · have hsg' : env.signalOk = false := by
          cases hx : env.signalOk
          · rfl
          · exact absurd hx hsg
        simp [hc, hsg'] at h
        subst h
        simp [hsg']

theorem BeginFrame_proceeds_ready (t : RendererState) (env : BeginFrameEnv)
    (t' : RendererState) (r : BeginFrameResult)
    (h : BeginFrame t env = .proceeds t' r) (harm : env.armOk = true) :
    slotReady t env.reportedIndex := by
  intro f hf
  by_cases h0 : f.fenceValue = 0
  · exact Or.inl h0
  by_cases hle : f.fenceValue ≤ f.completed
  · exact Or.inr hle
  exfalso
  have hw : WaitForFrame t env.reportedIndex env.armOk = .blocksUntil f.fenceValue := by
    unfold WaitForFrame
    rw [hf, harm]
    simp [h0, hle]
  unfold BeginFrame at h
  rw [hw] at h
  by_cases hl : env.reportedIndex < t.frameResources.length
  · rw [if_pos hl] at h
    simp at h
  · rw [if_neg hl] at h
    cases h

theorem cycle_run (m : Nat) : ∀ k, k ≤ m →
    ∃ s, runOps (initialState m) (cycleTrace k) = some s ∧ cycleInv m k s := by
  intro k
  induction k with
  | zero =>
    intro _
    refine ⟨initialState m, rfl, ?_⟩
    unfold cycleInv
    refine ⟨by simp [initialState], rfl, ?_, ?_, ?_⟩
    · intro i hi
      omega
    · intro i _ hi
      refine ⟨freshSlot 0, ?_, rfl, rfl⟩
      simp [initialState, List.getElem?_replicate, hi]
    · intro i hi
      omega
  | succ k ih =>
    intro hk1
    obtain ⟨s, hrun, hinv⟩ := ih (by omega)
    unfold cycleInv at hinv
    obtain ⟨hlen, hnext, hused, hfresh, hsig⟩ := hinv
    obtain ⟨f, hf, hfv, hfc⟩ := hfresh k le_rfl (by omega)
    have hklen : k < s.frameResources.length := by
      rw [hlen]
      omega
    have hb := BeginFrame_ready s k f hklen hf (Or.inl hfv)
    have hf1 : (updateSlot s.frameResources k
        (fun fr => { fr with allocatorResets := fr.allocatorResets + 1 }))[k]? =
        some { f with allocatorResets := f.allocatorResets + 1 } := by
      rw [updateSlot_getElem_self, hf]
      rfl
    have he := EndFrame_ok
      { s with rmBeginCount := s.rmBeginCount + 1
               currentFrameIndex := k
               frameResources :=
                 (updateSlot s.frameResources k
                   (fun fr => { fr with allocatorResets := fr.allocatorResets + 1 })) }
      { f with allocatorResets := f.allocatorResets + 1 } hf1
    refine ⟨{ s with
        rmBeginCount := s.rmBeginCount + 1
        currentFrameIndex := k
        frameResources :=
          ((updateSlot s.frameResources k
              (fun fr => { fr with allocatorResets := fr.allocatorResets + 1 })).set k
            { f with allocatorResets := f.allocatorResets + 1, fenceValue := s.nextFenceValue })
        submitCount := s.submitCount + 1
        nextFenceValue := s.nextFenceValue + 1
        drawnLog := s.nextFenceValue :: s.drawnLog
        signalLog := (k, s.nextFenceValue) :: s.signalLog
        rmEndCount := s.rmEndCount + 1
        presentCount := s.presentCount + 1 }, ?_, ?_⟩
    · rw [cycleTrace, runOps_append, hrun, Option.some_bind]
      simp only [runOps, stepOp]
      rw [hb]
      simp only [Option.some_bind]
      rw [he]
      rfl
    · unfold cycleInv
      refine ⟨?_, ?_, ?_, ?_, ?_⟩
      · simp [updateSlot_length, hlen]
      · simp [hnext]
      · intro i hi
        rcases Nat.lt_or_ge i k with hik | hik
        · obtain ⟨g, hg, hgv, hgc⟩ := hused i hik
          refine ⟨g, ?_, hgv, hgc⟩
          simp only []
          rw [List.getElem?_set_ne (by omega), updateSlot_getElem_ne _ _ _ _ (by omega)]
          exact hg
        · have hik' : i = k := by omega
          subst hik'
          refine ⟨{ f with allocatorResets := f.allocatorResets + 1,
                           fenceValue := s.nextFenceValue }, ?_, by simp [hnext], by simp [hfc]⟩
          simp only []
          rw [List.getElem?_set_eq_of_lt]
          rw [updateSlot_length]
          exact hklen
      · intro i hi him
        obtain ⟨g, hg, hgv, hgc⟩ := hfresh i (by omega) him
        refine ⟨g, ?_, hgv, hgc⟩
        simp only []
        rw [List.getElem?_set_ne (by omega), updateSlot_getElem_ne _ _ _ _ (by omega)]
        exact hg
      · intro i hi
        rcases Nat.lt_or_ge i k with hik | hik
        · exact List.mem_cons_of_mem _ (hsig i hik)
        · have hik' : i = k := by omega
          subst hik'
          rw [hnext]
          exact List.mem_cons_self _ _

/-- C2: backpressure.  First part: on an `m`-slot renderer (`1 ≤ m`), after
`m` begin/end cycles with no GPU completion, the `(m+1)`-th `BeginFrame`
(reusing slot 0) is blocked — the wait does not return — until a completion
for the reused slot's recorded fence value 1 is delivered, after which it
completes.  Second part: whenever a `BeginFrame` whose wait-registration did
not error completes, the slot whose allocator it reset was ready (sentinel or
fence reached the recorded value): the CPU never resets an allocator whose
slot fence is still incomplete, and hence never runs more than `bufferCount`
frames ahead of the GPU. -/
theorem spec_c2_backpressure (m : Nat) (hm : 1 ≤ m) :
    (∃ s, runOps (initialState m) (cycleTrace m) = some s ∧
      BeginFrame s (beginEnvOk 0) = .blocked 1 ∧
      stepOp s (.begin (beginEnvOk 0)) = none ∧
      ∃ s', runOps s [.deliver 0 1, .begin (beginEnvOk 0)] = some s') ∧
    (∀ t env t' r, BeginFrame t env = .proceeds t' r → env.armOk = true →
      slotReady t env.reportedIndex) := by
  constructor
  · obtain ⟨s, hrun, hinv⟩ := cycle_run m m le_rfl
    unfold cycleInv at hinv
    obtain ⟨hlen, hnext, hused, hfresh, hsig⟩ := hinv
    obtain ⟨f, hf, hfv, hfc⟩ := hused 0 hm
    have hlen0 : 0 < s.frameResources.length := by
      rw [hlen]
      omega
    have hb := BeginFrame_blocked s 0 f hlen0 hf (by omega) (by omega)
    rw [hfv] at hb
    refine ⟨s, hrun, by simpa using hb, ?_, ?_⟩
    · simp [stepOp, hb]
    · have hmax : 1 ≤ maxSignaled s 0 :=
        le_maxSignaled_of_mem s 0 1 (by simpa using hsig 0 hm)
      have hd : deliverCompletion s 0 1 = some { s with frameResources :=
          (updateSlot s.frameResources 0
            (fun fr => { fr with completed := max fr.completed 1 })) } := by
        unfold deliverCompletion
        rw [if_pos hmax]
      have hf2 : (updateSlot s.frameResources 0
          (fun fr => { fr with completed := max fr.completed 1 }))[0]? =
          some { f with completed := max f.completed 1 } := by
        rw [updateSlot_getElem_self, hf]
        rfl
      have hb2 := BeginFrame_ready
        { s with frameResources :=
            (updateSlot s.frameResources 0
              (fun fr => { fr with completed := max fr.completed 1 })) }
        0 { f with completed := max f.completed 1 }
        (by simpa [updateSlot_length] using hlen0) hf2
        (Or.inr (by simp [hfv]))
      have hrun2 : (runOps s [.deliver 0 1, .begin (beginEnvOk 0)]).isSome = true := by
        simp only [runOps, stepOp]
        rw [hd]
        simp only [Option.some_bind]
        rw [hb2]
        simp [runOps]
      obtain ⟨s', hs'⟩ := Option.isSome_iff_exists.mp hrun2
      exact ⟨s', hs'⟩
  · intro t env t' r h harm
    exact BeginFrame_proceeds_ready t env t' r h harm

/-- Witness for C2 at a concrete input. -/
theorem spec_c2_witness :
    (1 : Nat) ≤ 2 ∧
    ((∃ s, runOps (initialState 2) (cycleTrace 2) = some s ∧
      BeginFrame s (beginEnvOk 0) = .blocked 1 ∧
      stepOp s (.begin (beginEnvOk 0)) = none ∧
      ∃ s', runOps s [.deliver 0 1, .begin (beginEnvOk 0)] = some s') ∧
    (∀ t env t' r, BeginFrame t env = .proceeds t' r → env.armOk = true →
      slotReady t env.reportedIndex)) :=
  ⟨by decide, spec_c2_backpressure 2 (by decide)⟩

/-- C3: cold start.  First part: any slot whose `fenceValue` is the sentinel
0 reports complete and its wait returns immediately, for any state.  Second
part: from a fresh `m`-slot renderer, `BeginFrame` called `m` times in
succession (the first full cycle) with no intervening GPU completion never
blocks: the whole trace completes. -/
theorem spec_c3_cold_start (m : Nat) :
    (∀ (s : RendererState) (i : Nat) (f : FrameResources) (armOk : Bool),
      s.frameResources[i]? = some f → f.fenceValue = 0 →
      IsFrameComplete s i = true ∧ WaitForFrame s i armOk = .immediate) ∧
    (∃ s, runOps (initialState m) (cycleTrace m) = some s) := by
  constructor
  · intro s i f armOk hf h0
    constructor
    · unfold IsFrameComplete
      rw [hf]
      simp [h0]
    · unfold WaitForFrame
      rw [hf]
      simp [h0]
  · obtain ⟨s, hrun, -⟩ := cycle_run m m le_rfl
    exact ⟨s, hrun⟩

/-- Witness for C3 at a concrete input. -/
theorem spec_c3_witness :
    IsFrameComplete (initialState 2) 1 = true ∧
    (∃ s, runOps (initialState 2) (cycleTrace 2) = some s) :=
  ⟨((spec_c3_cold_start 2).1 (initialState 2) 1 (freshSlot 0) true rfl rfl).1,
   (spec_c3_cold_start 2).2⟩

/-- C4: the global fence value counter starts at 1 (0 reserved as the
unsubmitted sentinel); in every state reachable by any operation trace the
values drawn so far are exactly `nextFenceValue - 1, ..., 1` (newest first),
hence strictly increasing in chronological order and never reused over the
renderer's entire lifetime; each successful `EndFrame` draws the current
value and post-increments the counter; and `OnReconfigure` never resets the
counter or the drawn history. -/
theorem spec_c4_fence_counter (n : Nat) (ops : List Op) (s : RendererState)
    (h : runOps (initialState n) ops = some s) :
    (initialState n).nextFenceValue = 1 ∧
    1 ≤ s.nextFenceValue ∧
    s.drawnLog = countdown (s.nextFenceValue - 1) ∧
    List.Chain' (fun a b => b < a) s.drawnLog ∧
    s.drawnLog.Pairwise (fun a b => a ≠ b) ∧
    (∀ env s2, env.closeOk = true → EndFrame s env = some s2 →
      s2.drawnLog = s.nextFenceValue :: s.drawnLog ∧
      s2.nextFenceValue = s.nextFenceValue + 1) ∧
    (∀ w hgt b env, (OnReconfigure s w hgt b env).nextFenceValue = s.nextFenceValue ∧
      (OnReconfigure s w hgt b env).drawnLog = s.drawnLog) := by
  obtain ⟨h1, h2⟩ := runOps_counterInv ops (initialState n) s ⟨le_rfl, rfl⟩ h
  refine ⟨rfl, h1, h2, ?_, ?_, ?_, ?_⟩
  · rw [h2]
    exact (countdown_pairwise _).chain'
  · rw [h2]
    exact (countdown_pairwise _).imp (fun hab => ne_of_gt hab)
  · intro env s2 hc he
    exact EndFrame_draws s env s2 hc he
  · intro w hgt b env
    exact OnReconfigure_counter s w hgt b env

/-- Witness for C4 at a concrete input. -/
theorem spec_c4_witness :
    runOps (initialState 1) [Op.endFrame okEnd] = some c4WitState ∧
    c4WitState.drawnLog = countdown (c4WitState.nextFenceValue - 1) ∧
    c4WitState.nextFenceValue = 2 ∧ c4WitState.drawnLog = [1] :=
  ⟨rfl, (spec_c4_fence_counter 1 [Op.endFrame okEnd] c4WitState rfl).2.2.1, rfl, rfl⟩

/-- C7: `OnReconfigure` with a changed, nonzero buffer count (when the
swap-chain reconfigure and the per-slot creation succeed) fully releases the
old frame-resource pool and produces a pool of exactly `newBufferCount` fresh
slots — all created in a new epoch, none retaining any prior slot's
accumulated fence target value: every fresh slot starts at `fenceValue = 0`
(and a fence completed counter of 0, per `CreateFence(0, ...)`). -/
theorem spec_c7_reconfigure_fresh_pool (s : RendererState) (w h b : Nat)
    (env : ReconfigureEnv) (hok : env.reconfigOk = true) (hinit : env.initOk = true)
    (hb : b ≠ 0) (hchange : b ≠ s.swapBufferCount) :
    (OnReconfigure s w h b env).frameResources =
      List.replicate b (freshSlot (s.epoch + 1)) ∧
    (OnReconfigure s w h b env).frameResources.length = b ∧
    (OnReconfigure s w h b env).swapBufferCount = b ∧
    (OnReconfigure s w h b env).epoch = s.epoch + 1 ∧
    ∀ f ∈ (OnReconfigure s w h b env).frameResources,
      f.fenceValue = 0 ∧ f.completed = 0 ∧ f.allocatorResets = 0 ∧
      f.createdEpoch = s.epoch + 1 := by
  have heff : effectiveBufferCount s b = b := by
    unfold effectiveBufferCount
    simp [hb]
  have hone : OnReconfigure s w h b env =
      InitializeFrameResources { s with swapBufferCount := b, frameResources := [] } := by
    unfold OnReconfigure
    rw [if_pos hok, heff, if_pos hchange, if_pos hinit]
  rw [hone]
  unfold InitializeFrameResources
  refine ⟨rfl, by simp, rfl, rfl, ?_⟩
  intro f hf
  have := List.eq_of_mem_replicate hf
  subst this
  exact ⟨rfl, rfl, rfl, rfl⟩

/-- Witness for C7 at a concrete input. -/
theorem spec_c7_witness :
    (OnReconfigure (initialState 2) 800 600 3 { reconfigOk := true, initOk := true }).frameResources =
      List.replicate 3 (freshSlot 1) ∧
    (OnReconfigure (initialState 2) 800 600 3 { reconfigOk := true, initOk := true }).swapBufferCount = 3 :=
  ⟨(spec_c7_reconfigure_fresh_pool (initialState 2) 800 600 3
      { reconfigOk := true, initOk := true } rfl rfl (by decide) (by decide)).1,
   (spec_c7_reconfigure_fresh_pool (initialState 2) 800 600 3
      { reconfigOk := true, initOk := true } rfl rfl (by decide) (by decide)).2.2.1⟩

/-- Witness for C8 at a concrete input. -/
theorem spec_c8_witness :
    c8State.presentCount = (initialState 2).presentCount + 1 ∧
    c8State.signalLog = [((initialState 2).currentFrameIndex, (initialState 2).nextFenceValue)] := by
  have h := (spec_c8_present_failure_silent (initialState 2) presentFailEnv).2 c8State rfl rfl
  exact ⟨h.2.2.1, h.2.2.2.1 rfl⟩

end Dx12
